import Mathlib

/-!
Verification of the React SPA in `project-autolisting` (frontend sources under
`frontend/src`). The definitions below are a shallow embedding of the
client-side logic: `localStorage` is an association list of string keys and
values, network activity is reified as lists of issued `Request`s, timers set
by `setInterval`/`setTimeout` are reified as `Scheduled` items, and each
handler of interest becomes a pure state-transition function translated
line by line from the JavaScript source.
-/

namespace AutoListing

/-! ## Browser localStorage model

`localStorage` holds string keys and string values. `setItem` overwrites an
existing binding, `removeItem` deletes it, `getItem` returns the stored value
or `none`. -/

abbrev Store := List (String × String)

def Store.getItem : Store → String → Option String
  | [], _ => none
  | (k, v) :: rest, q => if k = q then some v else Store.getItem rest q

def Store.removeItem : Store → String → Store
  | [], _ => []
  | (k, v) :: rest, q =>
    if k = q then Store.removeItem rest q else (k, v) :: Store.removeItem rest q

def Store.setItem (st : Store) (q v : String) : Store :=
  (q, v) :: st.removeItem q

theorem Store.getItem_removeItem (st : Store) (q k : String) :
    (st.removeItem q).getItem k = if k = q then none else st.getItem k := by
  induction st with
  | nil => simp [Store.removeItem, Store.getItem]
  | cons hd tl ih =>
    obtain ⟨hk, hv⟩ := hd
    by_cases h1 : hk = q <;> by_cases h2 : k = q <;> by_cases h3 : hk = k <;>
      simp_all [Store.removeItem, Store.getItem, ih]

theorem Store.getItem_setItem (st : Store) (q v k : String) :
    (st.setItem q v).getItem k = if k = q then some v else st.getItem k := by
  by_cases h : k = q
  · simp [Store.setItem, Store.getItem, h]
  · have h' : ¬q = k := fun hq => h hq.symm
    simp [Store.setItem, Store.getItem, Store.getItem_removeItem, h, h']

/-! ## JavaScript value helpers

`truthy` models JS truthiness for optional string fields (absent, `null`,
`undefined` and the empty string are falsy); `jsOr` models the `a || b`
idiom on such fields. -/

def truthy : Option String → Bool
  | none => false
  | some s => !(s = "")

def jsOr (a b : Option String) : Option String :=
  if truthy a then a else b

/-! ## HTTP requests -/

inductive HttpMethod
  | get
  | post
deriving DecidableEq, Repr

structure Request where
  method : HttpMethod
  url : String
  body : Option String := none
deriving DecidableEq, Repr

/-! ## `storageUtils` (services/api.js)

Direct translations of `saveScrapeStatus`, `getScrapeStatus` and
`clearVendorScrapeData`; the JS builds the key with the template
literal for the type, vendor and suffix, and `clearVendorScrapeData`
removes the four scrape/shopify keys one after the other. -/

def scrapeStatusKey (vendor ty : String) : String :=
  ty ++ "_" ++ vendor ++ "_status"

def lastScrapeKey (vendor ty : String) : String :=
  ty ++ "_" ++ vendor ++ "_lastScrape"

def saveScrapeStatus (st : Store) (vendor ty status : String) : Store :=
  st.setItem (scrapeStatusKey vendor ty) status

def getScrapeStatus (st : Store) (vendor ty : String) : Option String :=
  st.getItem (scrapeStatusKey vendor ty)

def clearVendorScrapeData (st : Store) (vendor : String) : Store :=
  ((((st.removeItem ("scrape_" ++ vendor ++ "_status")).removeItem
      ("scrape_" ++ vendor ++ "_lastScrape")).removeItem
      ("shopify_" ++ vendor ++ "_status")).removeItem
      ("shopify_" ++ vendor ++ "_lastScrape"))

/-! ## Axios response interceptor (services/api.js lines 26-37)

On a rejected response the interceptor inspects `error.response?.status`;
on 401 it removes the `token` and `user` keys and navigates to `/login`,
and in every case it returns `Promise.reject(error)`. -/

structure InterceptOutcome where
  storage : Store
  redirect : Option String
  rejected : Bool
deriving DecidableEq, Repr

def responseErrorInterceptor (status : Option Nat) (st : Store) : InterceptOutcome :=
  if status = some 401 then
    ⟨(st.removeItem "token").removeItem "user", some "/login", true⟩
  else
    ⟨st, none, true⟩

/-- C7: the localStorage job-status cache round-trips: `getScrapeStatus v t`
after `saveScrapeStatus v t s` returns `s` (both use key `t_v_status`), and
`clearVendorScrapeData v` removes exactly the four keys
`scrape_v_status`, `scrape_v_lastScrape`, `shopify_v_status`,
`shopify_v_lastScrape`, leaving every other localStorage entry unchanged. -/
theorem storageUtils_roundtrip_and_clear (st : Store) (vendor ty s k : String) :
    getScrapeStatus (saveScrapeStatus st vendor ty s) vendor ty = some s ∧
    (clearVendorScrapeData st vendor).getItem k =
      (if k = "scrape_" ++ vendor ++ "_status" ∨
          k = "scrape_" ++ vendor ++ "_lastScrape" ∨
          k = "shopify_" ++ vendor ++ "_status" ∨
          k = "shopify_" ++ vendor ++ "_lastScrape"
       then none else st.getItem k) := by
  constructor
  · simp [getScrapeStatus, saveScrapeStatus, Store.getItem_setItem]
  · simp only [clearVendorScrapeData, Store.getItem_removeItem]
    by_cases h1 : k = "scrape_" ++ vendor ++ "_status" <;>
      by_cases h2 : k = "scrape_" ++ vendor ++ "_lastScrape" <;>
      by_cases h3 : k = "shopify_" ++ vendor ++ "_status" <;>
      by_cases h4 : k = "shopify_" ++ vendor ++ "_lastScrape" <;>
      simp [h1, h2, h3, h4]

/-- C2: on a response with status 401 the interceptor removes the `token`
and `user` localStorage entries and redirects to `/login`; on any other
error status localStorage is unchanged and no redirect occurs; in both
cases the error is propagated as a rejected promise. -/
theorem responseInterceptor_401_behavior (status : Option Nat) (st : Store) :
    (responseErrorInterceptor status st).rejected = true ∧
    (status = some 401 →
      (responseErrorInterceptor status st).storage =
        (st.removeItem "token").removeItem "user" ∧
      (responseErrorInterceptor status st).redirect = some "/login") ∧
    (status ≠ some 401 →
      (responseErrorInterceptor status st).storage = st ∧
      (responseErrorInterceptor status st).redirect = none) := by
  refine ⟨?_, fun h => ?_, fun h => ?_⟩ <;>
    simp_all [responseErrorInterceptor]
  by_cases hs : status = some 401 <;> simp_all

/-- Witness for C2: the 401 branch at a concrete store clears the auth keys
and redirects to `/login`, and a 500 leaves the store untouched. -/
theorem responseInterceptor_401_behavior_witness :
    (responseErrorInterceptor (some 401) [("token", "t"), ("user", "u"), ("x", "y")]).redirect
      = some "/login" ∧
    (responseErrorInterceptor (some 500) [("token", "t")]).storage = [("token", "t")] :=
  ⟨((responseInterceptor_401_behavior (some 401)
      [("token", "t"), ("user", "u"), ("x", "y")]).2.1 rfl).2,
   ((responseInterceptor_401_behavior (some 500)
      [("token", "t")]).2.2 (by decide)).1⟩

/-! ## `authAPI.login` (services/api.js lines 40-60)

The simulated login checks the two hard-coded credential pairs; on a match
it writes `token` then `user` (the JSON-stringified user object) to
localStorage and returns them, otherwise it throws `Invalid credentials`. -/

structure Credentials where
  username : String
  password : String
deriving DecidableEq, Repr

structure AuthUser where
  username : String
  role : String
  name : String
deriving DecidableEq, Repr

def userJson (u : AuthUser) : String :=
  "\x7b\"username\":\"" ++ u.username ++ "\",\"role\":\"" ++ u.role ++
    "\",\"name\":\"" ++ u.name ++ "\"\x7d"

structure LoginOutcome where
  storage : Store
  user : AuthUser
  token : String
deriving DecidableEq, Repr

def adminUser : AuthUser := ⟨"admin", "admin", "Admin User"⟩

def regularUser : AuthUser := ⟨"user", "user", "Regular User"⟩

def login (cred : Credentials) (st : Store) : Except String LoginOutcome :=
  if cred.username = "admin" ∧ cred.password = "admin123" then
    .ok ⟨(st.setItem "token" "fake-admin-token").setItem "user" (userJson adminUser),
         adminUser, "fake-admin-token"⟩
  else if cred.username = "user" ∧ cred.password = "user123" then
    .ok ⟨(st.setItem "token" "fake-user-token").setItem "user" (userJson regularUser),
         regularUser, "fake-user-token"⟩
  else
    .error "Invalid credentials"

/-! ## Vendor lists (services/api.js)

`vendorsAPI.getVendors` returns a hard-coded array and performs no HTTP
request; `deltaAPI.getVendors` performs `GET /api/delta/vendors` and falls
back to a hard-coded list if the call fails. Both are reified as a pair of
the requests issued and the value returned. -/

structure Vendor where
  value : String
  label : String
  website : Option String := none
  active : Option Bool := none
deriving DecidableEq, Repr

def vendorsGetVendors : List Request × List Vendor :=
  ([],
   [⟨"phoenix", "Phoenix Tapware", some "https://phoenixtapware.com.au", some true⟩,
    ⟨"hansgrohe", "Hansgrohe", some "https://hansgrohe.com", some true⟩,
    ⟨"moen", "Moen", some "https://moen.com", some true⟩,
    ⟨"kohler", "Kohler", some "https://kohler.com", some true⟩])

def deltaFallbackVendors : List Vendor :=
  [⟨"phoenix", "Phoenix Tapware", none, none⟩,
   ⟨"hansgrohe", "Hansgrohe", none, none⟩,
   ⟨"moen", "Moen", none, none⟩,
   ⟨"kohler", "Kohler", none, none⟩]

def deltaGetVendors (result : Except String (List Vendor)) :
    List Request × List Vendor :=
  (⟨[⟨.get, "/api/delta/vendors", none⟩],
    match result with
    | .ok vs => vs
    | .error _ => deltaFallbackVendors⟩)

/-! ## `loadProducts` (pages/UserDashboard.jsx lines 60-86)

The dashboard keeps the product list and pagination in component state;
`loadProducts` returns early while a search is already loading, replaces the
state from a successful response (with `|| []`, `|| 0`, `|| false`
defaults), and in the `catch` branch only logs, leaving the state as it
was. Products carry the optional string fields the claims inspect. -/

structure Product where
  id : Option String := none
  sku : Option String := none
  title : Option String := none
  category : Option String := none
  manufacturer : Option String := none
deriving DecidableEq, Repr

structure ProductsResponse where
  products : Option (List Product) := none
  total : Option Nat := none
  has_next : Option Bool := none
  has_prev : Option Bool := none
deriving DecidableEq, Repr

structure Pagination where
  total : Nat
  hasNext : Bool
  hasPrev : Bool
deriving DecidableEq, Repr

structure DashState where
  products : List Product
  pagination : Pagination
deriving DecidableEq, Repr

def loadProducts (searchLoading : Bool) (st : DashState)
    (result : Except String ProductsResponse) : DashState :=
  if searchLoading then st
  else
    match result with
    | .error _ => st
    | .ok d =>
      ⟨d.products.getD [],
       ⟨d.total.getD 0, d.has_next.getD false, d.has_prev.getD false⟩⟩

/-- C8: `authAPI.login` resolves exactly on the two hard-coded credential
pairs, storing the fake token and JSON user object and returning them;
every other pair throws `Invalid credentials` with no localStorage write. -/
theorem authLogin_hardcoded_credentials (cred : Credentials) (st : Store) :
    (cred = ⟨"admin", "admin123"⟩ →
      login cred st = .ok ⟨(st.setItem "token" "fake-admin-token").setItem "user"
        (userJson adminUser), adminUser, "fake-admin-token"⟩) ∧
    (cred = ⟨"user", "user123"⟩ →
      login cred st = .ok ⟨(st.setItem "token" "fake-user-token").setItem "user"
        (userJson regularUser), regularUser, "fake-user-token"⟩) ∧
    (cred ≠ ⟨"admin", "admin123"⟩ → cred ≠ ⟨"user", "user123"⟩ →
      login cred st = .error "Invalid credentials") := by
  obtain ⟨u, p⟩ := cred
  refine ⟨fun h => ?_, fun h => ?_, fun h1 h2 => ?_⟩
  · cases h
    simp [login]
  · cases h
    simp [login]
  · have ha : ¬(u = "admin" ∧ p = "admin123") := by
      intro hc
      exact h1 (by simp [hc.1, hc.2])
    have hb : ¬(u = "user" ∧ p = "user123") := by
      intro hc
      exact h2 (by simp [hc.1, hc.2])
    simp [login, ha, hb]

/-- Witness for C8: valid admin credentials resolve with the fake admin
token, and a wrong pair is rejected. -/
theorem authLogin_hardcoded_credentials_witness :
    (login ⟨"admin", "admin123"⟩ []).isOk = true ∧
    login ⟨"admin", "wrong"⟩ [] = .error "Invalid credentials" :=
  ⟨by rw [(authLogin_hardcoded_credentials ⟨"admin", "admin123"⟩ []).1 rfl]; rfl,
   (authLogin_hardcoded_credentials ⟨"admin", "wrong"⟩ []).2.2
     (by decide) (by decide)⟩

/-- C3 counterexample: `vendorsAPI.getVendors` issues no HTTP request at
all; in particular there is no `GET /api/vendors`, contradicting the claim
that every call issues a GET to `/api/vendors`. -/
theorem getVendors_no_api_vendors_request :
    vendorsGetVendors.1 = [] ∧
    (⟨.get, "/api/vendors", none⟩ : Request) ∉ vendorsGetVendors.1 := by
  refine ⟨rfl, ?_⟩
  simp [vendorsGetVendors]

/-- C3 amended: `vendorsAPI.getVendors` issues no HTTP request and returns
the hard-coded four-vendor list (phoenix, hansgrohe, moen, kohler); the
vendor-list endpoint actually consumed over HTTP is `/api/delta/vendors`
via `deltaAPI.getVendors`, which returns the backend response on success
and a hard-coded fallback on failure. -/
theorem getVendors_hardcoded_delta_endpoint (vs : List Vendor) (e : String) :
    vendorsGetVendors.1 = [] ∧
    (vendorsGetVendors.2.map Vendor.value) = ["phoenix", "hansgrohe", "moen", "kohler"] ∧
    deltaGetVendors (.ok vs) = ([⟨.get, "/api/delta/vendors", none⟩], vs) ∧
    deltaGetVendors (.error e) =
      ([⟨.get, "/api/delta/vendors", none⟩], deltaFallbackVendors) := by
  exact ⟨rfl, rfl, rfl, rfl⟩

/-- C5: `loadProducts` leaves the products array and pagination state
exactly as they were when the request rejects (and when a search is
already in flight no request is made and the state is untouched); only a
successful response replaces them with the response payload. -/
theorem loadProducts_preserves_on_error (st : DashState) (e : String)
    (d : ProductsResponse) (r : Except String ProductsResponse) :
    loadProducts false st (.error e) = st ∧
    loadProducts true st r = st ∧
    loadProducts false st (.ok d) =
      ⟨d.products.getD [],
       ⟨d.total.getD 0, d.has_next.getD false, d.has_prev.getD false⟩⟩ := by
  exact ⟨rfl, rfl, rfl⟩

/-! ## `CategoryFilter` (components/User/CategoryFilter.jsx)

The search input's `onChange` handler only stores the text in the
`localSearch` state; `onFilterChange` is invoked from the form's submit
handler (with the current `localSearch`), from the category select and
from the clear-filters button. No timer of any kind is installed, so each
event is a pure step emitting the list of `onFilterChange` payloads. -/

structure CFState where
  localSearch : String
deriving DecidableEq, Repr

structure FilterPatch where
  category : Option String := none
  search : Option String := none
deriving DecidableEq, Repr

inductive CFEvent
  | input (text : String)
  | submit
  | categorySelect (c : String)
  | clearFilters
deriving DecidableEq, Repr

def cfHandle : CFState → CFEvent → CFState × List FilterPatch
  | _, .input t => (⟨t⟩, [])
  | st, .submit => (st, [⟨none, some st.localSearch⟩])
  | st, .categorySelect c => (st, [⟨some c, none⟩])
  | _, .clearFilters => (⟨""⟩, [⟨some "", some ""⟩])

def cfRun : CFState → List CFEvent → CFState × List FilterPatch
  | st, [] => (st, [])
  | st, e :: rest =>
    let out := cfHandle st e
    let rest2 := cfRun out.1 rest
    (rest2.1, out.2 ++ rest2.2)

/-- C4 counterexample: typing keystrokes into the CategoryFilter search
input triggers no filter change at all (there is no debounce timer); the
filter change fires only when the form is explicitly submitted, with the
last typed value. This refutes the claim that the product fetch is
triggered automatically after a debounce delay following the last
keystroke. -/
theorem categoryFilter_keystrokes_emit_no_search :
    (cfRun ⟨""⟩ [.input "t", .input "ta", .input "tap"]).2 = [] ∧
    (cfRun ⟨""⟩ [.input "t", .input "ta", .input "tap", .submit]).2 =
      [⟨none, some "tap"⟩] := by
  exact ⟨rfl, rfl⟩

/-- C4 amended: product search is not debounced: for every sequence of
keystrokes typed into the CategoryFilter search input, no filter change
(and hence no product fetch) is triggered by the keystrokes themselves;
the keystrokes only update the local input state, and the filter change is
emitted exactly on explicit form submission, carrying the current input
value. -/
theorem categoryFilter_submit_only_search (st : CFState) (texts : List String) :
    (cfRun st (texts.map CFEvent.input)).2 = [] ∧
    (cfHandle st .submit).2 = [⟨none, some st.localSearch⟩] := by
  constructor
  · induction texts generalizing st with
    | nil => rfl
    | cons t rest ih => simpa [cfRun, cfHandle] using ih ⟨t⟩
  · rfl

/-! ## Gap Analysis filtering (components/Shared/GapAnalysis.jsx lines 88-108)

The effect recomputes `filteredProducts` from
`deltaData.data.products_not_in_shopify` whenever the filters or the delta
payload change: when the category filter is a non-empty string it keeps
products whose `category` strictly equals it, and when the search string
is non-empty it keeps products whose lower-cased `title`, `sku` or
`manufacturer` contains the lower-cased search. -/

def fieldContainsLower : Option String → String → Bool
  | none, _ => false
  | some t, sl => decide (List.IsInfix sl.toList t.toLower.toList)

def gapSearchMatch (p : Product) (sl : String) : Bool :=
  fieldContainsLower p.title sl || fieldContainsLower p.sku sl ||
    fieldContainsLower p.manufacturer sl

def gapApplyFilters (c s : String) (l : List Product) : List Product :=
  let l1 := if c = "" then l else l.filter (fun p => p.category == some c)
  if s = "" then l1 else l1.filter (fun p => gapSearchMatch p s.toLower)

/-- Case-insensitive containment, written the way the claim states it: the
field contains the search string up to case. -/
def containsCI (hay : Option String) (needle : String) : Bool :=
  match hay with
  | none => false
  | some t => decide (List.IsInfix needle.toLower.toList t.toLower.toList)

/-- The filtered set exactly as the claim describes it: one pass keeping
products that satisfy the category filter (when non-empty) and the
case-insensitive search over title, sku and manufacturer (when non-empty). -/
def specGapFilter (c s : String) (l : List Product) : List Product :=
  l.filter (fun p =>
    (c == "" || p.category == some c) &&
    (s == "" || (containsCI p.title s || containsCI p.sku s ||
                 containsCI p.manufacturer s)))

/-- C6: for every delta payload and filter state, the displayed filtered
set equals exactly the subset of `products_not_in_shopify` whose category
equals the category filter (when non-empty) and whose title, sku or
manufacturer contains the search string case-insensitively (when
non-empty); with both filters empty it is the full list. -/
theorem gapAnalysis_filter_correct (c s : String) (l : List Product) :
    gapApplyFilters c s l = specGapFilter c s l ∧
    gapApplyFilters "" "" l = l := by
  have hfield : ∀ p : Product, gapSearchMatch p s.toLower =
      (containsCI p.title s || containsCI p.sku s || containsCI p.manufacturer s) := by
    intro p
    obtain ⟨_, sku, title, _, man⟩ := p
    cases title <;> cases sku <;> cases man <;>
      simp [gapSearchMatch, fieldContainsLower, containsCI]
  constructor
  · by_cases hc : c = "" <;> by_cases hs : s = ""
    · simp [gapApplyFilters, specGapFilter, hc, hs]
    · have hsb : (s == "") = false := beq_eq_false_iff_ne.mpr hs
      simp [gapApplyFilters, specGapFilter, hc, hs, hsb, hfield]
    · have hcb : (c == "") = false := beq_eq_false_iff_ne.mpr hc
      simp [gapApplyFilters, specGapFilter, hc, hs, hcb]
    · have hsb : (s == "") = false := beq_eq_false_iff_ne.mpr hs
      have hcb : (c == "") = false := beq_eq_false_iff_ne.mpr hc
      simp only [gapApplyFilters, specGapFilter, if_neg hc, if_neg hs,
        List.filter_filter]
      refine List.filter_congr fun p _ => ?_
      simp [hsb, hcb, hfield p, Bool.and_comm]
  · simp [gapApplyFilters, specGapFilter]

/-! ## Selection-set bookkeeping (components/User/ProductList.jsx lines 25-66,
identical handlers in components/Shared/GapAnalysis.jsx lines 126-146)

A product's selection key is `product.id || product.sku`; the selected set
is a JS `Set` of such keys. An effect resets the set to empty whenever
the `products` prop changes; `handleSelectionChange` inserts or deletes
the key of the product whose checkbox fired (checkboxes exist only for
displayed products); `handleSelectAll` clears the set when its size equals
`products.length` and otherwise selects the keys of all displayed
products. -/

def productKey (p : Product) : Option String :=
  jsOr p.id p.sku

abbrev SelSet := Finset (Option String)

def displayedKeys (ps : List Product) : SelSet :=
  (ps.map productKey).toFinset

def handleSelectionChange (sel : SelSet) (p : Product) (isSelected : Bool) : SelSet :=
  if isSelected then insert (productKey p) sel else sel.erase (productKey p)

def handleSelectAll (ps : List Product) (sel : SelSet) : SelSet :=
  if sel.card = ps.length then ∅ else displayedKeys ps

inductive SelEvent
  | change (p : Product) (isSelected : Bool)
  | selectAll
  | productsChange (ps : List Product)

def selStep : List Product × SelSet → SelEvent → List Product × SelSet
  | (ps, sel), .change p b =>
    (ps, if p ∈ ps then handleSelectionChange sel p b else sel)
  | (ps, sel), .selectAll => (ps, handleSelectAll ps sel)
  | (_, _), .productsChange ps2 => (ps2, ∅)

def selRun : List Product × SelSet → List SelEvent → List Product × SelSet
  | st, [] => st
  | st, e :: rest => selRun (selStep st e) rest

theorem selStep_subset (st : List Product × SelSet) (e : SelEvent)
    (h : st.2 ⊆ displayedKeys st.1) :
    (selStep st e).2 ⊆ displayedKeys (selStep st e).1 := by
  obtain ⟨ps, sel⟩ := st
  cases e with
  | change p b =>
    by_cases hp : p ∈ ps
    · cases b with
      | true =>
        simp only [selStep, if_pos hp, handleSelectionChange, if_pos rfl]
        exact Finset.insert_subset
          (by simp [displayedKeys, List.mem_map]; exact ⟨p, hp, rfl⟩) h
      | false =>
        simp only [selStep, if_pos hp, handleSelectionChange]
        exact Finset.Subset.trans (Finset.erase_subset _ _) h
    · simpa [selStep, hp] using h
  | selectAll =>
    simp only [selStep, handleSelectAll]
    by_cases hcard : sel.card = ps.length
    · simp [hcard]
    · simp [hcard]
  | productsChange ps2 => simp [selStep]

theorem selRun_subset (st : List Product × SelSet) (evs : List SelEvent)
    (h : st.2 ⊆ displayedKeys st.1) :
    (selRun st evs).2 ⊆ displayedKeys (selRun st evs).1 := by
  induction evs generalizing st with
  | nil => exact h
  | cons e rest ih => exact ih (selStep st e) (selStep_subset st e h)

/-- C9: the selected-products set only ever contains keys (`id || sku`) of
products currently displayed: it is reset to empty on every change of the
`products` prop, `handleSelectionChange` adds or removes exactly the key
of the given product, and `handleSelectAll` (under the invariant) either
selects exactly the keys of all displayed products or clears the set, the
clearing case arising exactly when all displayed keys are already
selected. -/
theorem productList_selection_invariant :
    (∀ (ps0 : List Product) (evs : List SelEvent),
      (selRun (ps0, ∅) evs).2 ⊆ displayedKeys (selRun (ps0, ∅) evs).1) ∧
    (∀ (sel : SelSet) (p : Product) (k : Option String),
      (k ∈ handleSelectionChange sel p true ↔ (k = productKey p ∨ k ∈ sel)) ∧
      (k ∈ handleSelectionChange sel p false ↔ (k ∈ sel ∧ k ≠ productKey p))) ∧
    (∀ (ps : List Product) (sel : SelSet), sel ⊆ displayedKeys ps →
      handleSelectAll ps sel = displayedKeys ps ∨
      (displayedKeys ps ⊆ sel ∧ handleSelectAll ps sel = ∅)) := by
  refine ⟨?_, ?_, ?_⟩
  · intro ps0 evs
    exact selRun_subset (ps0, ∅) evs (Finset.empty_subset _)
  · intro sel p k
    constructor
    · simp [handleSelectionChange]
    · simp [handleSelectionChange, and_comm]
  · intro ps sel hsub
    by_cases hcard : sel.card = ps.length
    · right
      have h1 : sel.card ≤ (displayedKeys ps).card := Finset.card_le_card hsub
      have h2 : (displayedKeys ps).card ≤ (ps.map productKey).length :=
        List.toFinset_card_le _
      have h3 : (ps.map productKey).length = ps.length := List.length_map _ _
      have heq : sel = displayedKeys ps :=
        Finset.eq_of_subset_of_card_le hsub (by omega)
      refine ⟨heq ▸ Finset.Subset.refl _, ?_⟩
      simp [handleSelectAll, hcard]
    · left
      simp [handleSelectAll, hcard]

/-- Witness for C9: with one displayed product keyed by its sku and nothing
selected, `handleSelectAll` selects exactly that key. -/
theorem productList_selection_invariant_witness :
    handleSelectAll [{ sku := some "SKU1" }] ∅ =
      displayedKeys [{ sku := some "SKU1" }] := by
  rcases productList_selection_invariant.2.2 [{ sku := some "SKU1" }] ∅
    (Finset.empty_subset _) with h | h
  · exact h
  · exact absurd
      (h.1 (show (some "SKU1" : Option String) ∈
        displayedKeys [{ sku := some "SKU1" }] from by decide))
      (Finset.not_mem_empty _)

/-! ## Bulk Shopify listing (components/User/ProductList.jsx lines 68-102,
components/Shared/GapAnalysis.jsx lines 148-185)

`handleBulkListOnShopify` collects the displayed products whose key is in
the selected set, returns with an alert (and no request) when that list is
empty or none of them has a truthy `sku`, otherwise posts the sku list to
`/api/list/bulk`; on success it clears the selection and exits select
mode, on failure it only alerts. The GapAnalysis variant additionally
reloads the delta data after success; the request, selection and
select-mode behaviour below is common to both. -/

structure BulkOutcome where
  request : Option (List String)
  selected : SelSet
  selectMode : Bool

def handleBulkListOnShopify (ps : List Product) (sel : SelSet) (mode : Bool)
    (apiResult : Except String Unit) : BulkOutcome :=
  let selectedList := ps.filter (fun p => decide (productKey p ∈ sel))
  if selectedList.length = 0 then ⟨none, sel, mode⟩
  else
    let skus := (selectedList.filter (fun p => truthy p.sku)).map
      (fun p => p.sku.getD "")
    if skus.length = 0 then ⟨none, sel, mode⟩
    else
      match apiResult with
      | .ok _ => ⟨some skus, ∅, false⟩
      | .error _ => ⟨some skus, sel, mode⟩

/-- The sku list as the claim states it: the SKUs of the currently selected
displayed products that have a non-empty sku field. -/
def claimSelectedSkus (ps : List Product) (sel : SelSet) : List String :=
  (ps.filter (fun p => decide (productKey p ∈ sel) && truthy p.sku)).map
    (fun p => p.sku.getD "")

theorem bulk_skus_eq_claim (ps : List Product) (sel : SelSet) :
    ((ps.filter (fun p => decide (productKey p ∈ sel))).filter
        (fun p => truthy p.sku)).map (fun p => p.sku.getD "") =
      claimSelectedSkus ps sel := by
  simp only [claimSelectedSkus, List.filter_filter]
  congr 1
  refine List.filter_congr fun p _ => ?_
  exact Bool.and_comm _ _

theorem handleBulk_eq (ps : List Product) (sel : SelSet) (mode : Bool)
    (res : Except String Unit) :
    handleBulkListOnShopify ps sel mode res =
      (if (ps.filter (fun p => decide (productKey p ∈ sel))).length = 0 then
        ⟨none, sel, mode⟩
      else if (((ps.filter (fun p => decide (productKey p ∈ sel))).filter
          (fun p => truthy p.sku)).map (fun p => p.sku.getD "")).length = 0 then
        ⟨none, sel, mode⟩
      else
        match res with
        | .ok _ => ⟨some (((ps.filter (fun p => decide (productKey p ∈ sel))).filter
            (fun p => truthy p.sku)).map (fun p => p.sku.getD "")), ∅, false⟩
        | .error _ => ⟨some (((ps.filter (fun p => decide (productKey p ∈ sel))).filter
            (fun p => truthy p.sku)).map (fun p => p.sku.getD "")), sel, mode⟩) := rfl

/-- C10: every bulk Shopify listing request carries exactly the SKUs of the
currently selected products with a non-empty sku field; when no displayed
product is selected or no selected product has a SKU, no request is issued
and the selection set and select mode are unchanged; on a successful
request the selection is cleared and select mode exited, and on a failed
request the selection set and select mode are unchanged. -/
theorem bulkListing_skus_and_selection (ps : List Product) (sel : SelSet)
    (mode : Bool) (res : Except String Unit) :
    (claimSelectedSkus ps sel = [] →
      handleBulkListOnShopify ps sel mode res = ⟨none, sel, mode⟩) ∧
    (claimSelectedSkus ps sel ≠ [] →
      (handleBulkListOnShopify ps sel mode res).request =
        some (claimSelectedSkus ps sel) ∧
      (res = .ok () →
        (handleBulkListOnShopify ps sel mode res).selected = ∅ ∧
        (handleBulkListOnShopify ps sel mode res).selectMode = false) ∧
      (∀ e, res = .error e →
        (handleBulkListOnShopify ps sel mode res).selected = sel ∧
        (handleBulkListOnShopify ps sel mode res).selectMode = mode)) := by
  have hskus := bulk_skus_eq_claim ps sel
  constructor
  · intro hempty
    rw [handleBulk_eq]
    by_cases hL : (ps.filter (fun p => decide (productKey p ∈ sel))).length = 0
    · rw [if_pos hL]
    · have hS : (((ps.filter (fun p => decide (productKey p ∈ sel))).filter
          (fun p => truthy p.sku)).map (fun p => p.sku.getD "")).length = 0 := by
        rw [hskus, hempty]
        rfl
      rw [if_neg hL, if_pos hS]
  · intro hne
    have hS : ¬((((ps.filter (fun p => decide (productKey p ∈ sel))).filter
        (fun p => truthy p.sku)).map (fun p => p.sku.getD "")).length = 0) := by
      rw [hskus]
      simpa [List.length_eq_zero] using hne
    have hL : ¬((ps.filter (fun p => decide (productKey p ∈ sel))).length = 0) := by
      intro h0
      have hnil : ps.filter (fun p => decide (productKey p ∈ sel)) = [] :=
        List.length_eq_zero.mp h0
      exact hS (by rw [hnil]; rfl)
    refine ⟨?_, fun hok => ?_, fun e he => ?_⟩
    · rw [handleBulk_eq, if_neg hL, if_neg hS]
      cases res <;> exact congrArg some hskus
    · subst hok
      rw [handleBulk_eq, if_neg hL, if_neg hS]
      exact ⟨rfl, rfl⟩
    · subst he
      rw [handleBulk_eq, if_neg hL, if_neg hS]
      exact ⟨rfl, rfl⟩

/-- Witness for C10: with one displayed product of sku `SKU1` selected and a
successful request, the body carries exactly `["SKU1"]`, the selection is
cleared and select mode exited. -/
theorem bulkListing_skus_and_selection_witness :
    (handleBulkListOnShopify [{ sku := some "SKU1" }] {some "SKU1"} true
      (.ok ())).request = some ["SKU1"] ∧
    (handleBulkListOnShopify [{ sku := some "SKU1" }] {some "SKU1"} true
      (.ok ())).selected = ∅ ∧
    (handleBulkListOnShopify [{ sku := some "SKU1" }] {some "SKU1"} true
      (.ok ())).selectMode = false := by
  have h := (bulkListing_skus_and_selection [{ sku := some "SKU1" }]
    {some "SKU1"} true (.ok ())).2 (by decide)
  refine ⟨h.1.trans ?_, (h.2.1 rfl).1, (h.2.1 rfl).2⟩
  have hc : claimSelectedSkus [{ sku := some "SKU1" }] {some "SKU1"} = ["SKU1"] := by
    decide
  rw [hc]

/-! ## `ScrapeButton` (components/User/ScrapeButton.jsx lines 52-167)

`handleStartScraping` posts the start request for the vendor
(`POST /api/myweb/{vendor}` with the upper-cased vendor body for type
`shopify`, `POST /api/scrape/{vendor}` for type `scrape`). On
`response.success` it moves the component to status `running` and installs
two timers: a `setInterval` that advances the canned progress messages
(every 10000 ms for shopify, 15000 ms for scrape) and a `setTimeout` that
invokes `completeProcess` (after 60000 ms for shopify, 120000 ms for
scrape). `completeProcess` flips the status to `completed` using no
network call, then schedules a 3000 ms reset. Requests issued and timers
installed are returned explicitly so the theorems can state that no
status endpoint is consulted between the start request and completion. -/

inductive JobType
  | scrape
  | shopify
deriving DecidableEq, Repr

def typeName : JobType → String
  | .scrape => "scrape"
  | .shopify => "shopify"

def progressMessagesFor : JobType → List String
  | .shopify =>
    ["Connecting to Shopify...", "Fetching product pages...",
     "Processing product data...", "Saving products to database...",
     "Finalizing data sync..."]
  | .scrape =>
    ["Connecting to website...", "Fetching product pages...",
     "Extracting product data...", "Processing and saving products...",
     "Finalizing data..."]

def initProgress : JobType → String
  | .shopify => "Initializing Shopify fetch..."
  | .scrape => "Initializing scraping process..."

def runningProgress : JobType → String
  | .shopify => "Fetching products from Shopify... This may take a few minutes."
  | .scrape => "Scraping in progress... This may take a few minutes."

def completedProgress : JobType → String
  | .shopify => "Shopify data fetch completed successfully!"
  | .scrape => "Scraping completed successfully!"

def startRequest (ty : JobType) (vendor : String) : Request :=
  match ty with
  | .shopify => ⟨.post, "/api/myweb/" ++ vendor, some vendor.toUpper⟩
  | .scrape => ⟨.post, "/api/scrape/" ++ vendor, none⟩

def isStatusRequest (r : Request) : Bool :=
  (r.method == .get) && decide (List.IsPrefix "/api/scrape/status/".toList r.url.toList)

structure StartResponse where
  success : Bool
  error : Option String := none
deriving DecidableEq, Repr

structure BtnState where
  isScrapingActive : Bool
  scrapeStatus : Option String
  error : String
  progress : String
  storage : Store
deriving DecidableEq, Repr

inductive Scheduled
  | intervalTick (periodMs : Nat) (messages : List String)
  | timeoutComplete (delayMs : Nat)
  | timeoutReset (delayMs : Nat)
deriving DecidableEq, Repr

structure HandlerOutcome where
  state : BtnState
  requests : List Request
  scheduled : List Scheduled
deriving DecidableEq, Repr

def progressPeriodMs : JobType → Nat
  | .shopify => 10000
  | .scrape => 15000

def completionDelayMs : JobType → Nat
  | .shopify => 60000
  | .scrape => 120000

def handleStartScraping (ty : JobType) (vendor : String)
    (result : Except String StartResponse) (s : BtnState) : HandlerOutcome :=
  if vendor = "" then
    ⟨{ s with error := "Please select a vendor first" }, [], []⟩
  else
    let key := scrapeStatusKey vendor (typeName ty)
    let s1 : BtnState :=
      ⟨true, some "starting", "", initProgress ty, s.storage.setItem key "starting"⟩
    match result with
    | .ok resp =>
      if resp.success then
        ⟨{ s1 with scrapeStatus := some "running",
                   progress := runningProgress ty,
                   storage := s1.storage.setItem key "running" },
         [startRequest ty vendor],
         [.intervalTick (progressPeriodMs ty) (progressMessagesFor ty),
          .timeoutComplete (completionDelayMs ty)]⟩
      else
        ⟨⟨false, some "error", (resp.error.getD "Process failed to start"), "",
          s1.storage.removeItem key⟩,
         [startRequest ty vendor], []⟩
    | .error msg =>
      ⟨⟨false, some "error", msg, "", s1.storage.removeItem key⟩,
       [startRequest ty vendor], []⟩

def completeProcess (ty : JobType) (vendor : String) (nowIso : String)
    (s : BtnState) : HandlerOutcome :=
  ⟨⟨false, some "completed", s.error, completedProgress ty,
    (s.storage.removeItem (scrapeStatusKey vendor (typeName ty))).setItem
      (lastScrapeKey vendor (typeName ty)) nowIso⟩,
   [], [.timeoutReset 3000]⟩

/-- C1: when the start request of a scrape or shopify job resolves with
success, the handler issues exactly the one start request (never the
`/api/scrape/status/` endpoint), installs exactly a progress interval of
15000 ms for scrape and 10000 ms for shopify plus a completion timeout of
120000 ms for scrape and 60000 ms for shopify, and the scheduled
`completeProcess` moves the displayed status to `completed` while issuing
no request at all. -/
theorem scrapeButton_fixed_timer_completion (ty : JobType) (vendor : String)
    (resp : StartResponse) (s : BtnState) (nowIso : String)
    (hv : vendor ≠ "") (hs : resp.success = true) :
    (handleStartScraping ty vendor (.ok resp) s).requests =
      [startRequest ty vendor] ∧
    ((handleStartScraping ty vendor (.ok resp) s).requests.all
      (fun r => !(isStatusRequest r))) = true ∧
    (handleStartScraping ty vendor (.ok resp) s).scheduled =
      [.intervalTick (if ty = .shopify then 10000 else 15000)
        (progressMessagesFor ty),
       .timeoutComplete (if ty = .shopify then 60000 else 120000)] ∧
    (handleStartScraping ty vendor (.ok resp) s).state.scrapeStatus =
      some "running" ∧
    (completeProcess ty vendor nowIso
      (handleStartScraping ty vendor (.ok resp) s).state).state.scrapeStatus =
      some "completed" ∧
    (completeProcess ty vendor nowIso
      (handleStartScraping ty vendor (.ok resp) s).state).requests = [] := by
  have hper : progressPeriodMs ty = if ty = .shopify then 10000 else 15000 := by
    cases ty <;> rfl
  have hdel : completionDelayMs ty = if ty = .shopify then 60000 else 120000 := by
    cases ty <;> rfl
  have hnostatus : isStatusRequest (startRequest ty vendor) = false := by
    cases ty <;> rfl
  refine ⟨?_, ?_, ?_, ?_, ?_, ?_⟩ <;>
    simp [handleStartScraping, completeProcess, hv, hs, hper, hdel, hnostatus]

/-- Witness for C1: starting a phoenix scrape whose start request succeeds
issues only `POST /api/scrape/phoenix`, schedules the 15000 ms progress
interval and the 120000 ms completion timeout, and the completion callback
reports status `completed` with no request. -/
theorem scrapeButton_fixed_timer_completion_witness :
    (handleStartScraping .scrape "phoenix" (.ok ⟨true, none⟩)
      ⟨false, none, "", "", []⟩).scheduled =
      [.intervalTick 15000 (progressMessagesFor .scrape),
       .timeoutComplete 120000] ∧
    (completeProcess .scrape "phoenix" "2024-08-24T10:30:00Z"
      (handleStartScraping .scrape "phoenix" (.ok ⟨true, none⟩)
        ⟨false, none, "", "", []⟩).state).state.scrapeStatus = some "completed" := by
  have h := scrapeButton_fixed_timer_completion .scrape "phoenix" ⟨true, none⟩
    ⟨false, none, "", "", []⟩ "2024-08-24T10:30:00Z" (by decide) rfl
  exact ⟨h.2.2.1, h.2.2.2.2.1⟩

end AutoListing
